import Mathlib

/-
Verification of the session-keepalive core of the geph4 client
(src/geph4-client/src/kalive.rs).  Each section embeds one part of the
source as executable Lean definitions and proves the corresponding
claims about exit selection, the connection races, the ACK-decimation
packet classifier and rate limiter, the VPN hello negotiation, and the
watchdog.
-/

set_option maxHeartbeats 1000000

/-! ## Exit selection (kalive.rs lines 111-119) -/

/-- An exit relay descriptor (spec section 3): the fields of the exits
returned by the cache collaborator that kalive.rs uses, a hostname
(lines 115-119) and a transport key (line 168). -/
structure ExitDescriptor where
  hostname : String
  sosistab_key : Nat
deriving DecidableEq

/-- Stable insertion of one element into a list keyed by a natural number:
the new element goes in front of the first element whose key is not
smaller than its own.  Together with stableSortByKey this models the
stable sort performed by the Rust slice method sort_by invoked at
kalive.rs lines 115-118 (the Rust documentation guarantees sort_by is
stable, and a stable sort under a total key order has a unique output,
so any stable sort models it). -/
def stableInsert {α : Type} (key : α → Nat) (x : α) : List α → List α
  | [] => [x]
  | y :: ys => if key x ≤ key y then x :: y :: ys else y :: stableInsert key x ys

/-- Stable sort of a list by a natural-number key; see stableInsert. -/
def stableSortByKey {α : Type} (key : α → Nat) : List α → List α
  | [] => []
  | x :: xs => stableInsert key x (stableSortByKey key xs)

/-- Exit selection (kalive.rs lines 111-119): the fetched exit list is
sorted, stably, by the Damerau-Levenshtein distance between each
hostname and the requested exit_host, and the first element of the
sorted list is taken.  The distance function itself is supplied by the
external strsim crate (out of scope per spec section 1), so it is a
parameter dist here. -/
def chooseExit (dist : String → String → Nat) (exit_host : String)
    (exits : List ExitDescriptor) : Option ExitDescriptor :=
  (stableSortByKey (fun e => dist e.hostname exit_host) exits).head?

theorem stableInsert_ne_nil {α : Type} (key : α → Nat) (x : α) (l : List α) :
    stableInsert key x l ≠ [] := by
  cases l with
  | nil => simp [stableInsert]
  | cons y ys =>
    simp only [stableInsert]
    split <;> simp

theorem stableSortByKey_eq_nil {α : Type} (key : α → Nat) (l : List α)
    (h : stableSortByKey key l = []) : l = [] := by
  cases l with
  | nil => rfl
  | cons x xs => exact absurd h (stableInsert_ne_nil key x (stableSortByKey key xs))

/-- The head of a stable sort by key is the first element of the input
attaining the minimal key. -/
theorem stableSortByKey_head_first_min {α : Type} (key : α → Nat) :
    ∀ (l : List α) (c : α), (stableSortByKey key l).head? = some c →
      (∀ x ∈ l, key c ≤ key x) ∧
      l.find? (fun x => decide (key x ≤ key c)) = some c := by
  intro l
  induction l with
  | nil => intro c hc; simp [stableSortByKey] at hc
  | cons x xs ih =>
    intro c hc
    simp only [stableSortByKey] at hc
    cases hsort : stableSortByKey key xs with
    | nil =>
      have hxs : xs = [] := stableSortByKey_eq_nil key xs hsort
      rw [hsort] at hc
      simp only [stableInsert, List.head?_cons, Option.some.injEq] at hc
      rw [← hc]
      subst hxs
      constructor
      · intro y hy
        simp only [List.mem_singleton] at hy
        subst hy; exact Nat.le_refl _
      · rw [List.find?_cons_of_pos _ (by simp)]
    | cons m rest =>
      have hm := ih m (by rw [hsort]; rfl)
      rw [hsort] at hc
      simp only [stableInsert] at hc
      by_cases hle : key x ≤ key m
      · rw [if_pos hle, List.head?_cons, Option.some.injEq] at hc
        rw [← hc]
        constructor
        · intro y hy
          rcases List.mem_cons.mp hy with h | h
          · subst h; exact Nat.le_refl _
          · exact Nat.le_trans hle (hm.1 y h)
        · rw [List.find?_cons_of_pos _ (by simp)]
      · rw [if_neg hle, List.head?_cons, Option.some.injEq] at hc
        rw [← hc]
        have hlt : key m < key x := Nat.lt_of_not_le hle
        constructor
        · intro y hy
          rcases List.mem_cons.mp hy with h | h
          · subst h; exact Nat.le_of_lt hlt
          · exact hm.1 y h
        · rw [List.find?_cons_of_neg _ (by simpa using hlt)]
          exact hm.2

/-- C1: for every non-empty exit list and requested hostname, the exit
chosen at kalive.rs lines 111-119 exists, its hostname has minimal
distance to the requested string among all fetched exits, and it is the
first exit in fetched order attaining that minimum (the sort at lines
115-118 is stable). -/
theorem c1_exit_selection (dist : String → String → Nat) (exit_host : String)
    (exits : List ExitDescriptor) (hne : exits ≠ []) :
    (chooseExit dist exit_host exits).isSome = true ∧
    ∀ c, chooseExit dist exit_host exits = some c →
      (∀ e ∈ exits, dist c.hostname exit_host ≤ dist e.hostname exit_host) ∧
      exits.find?
        (fun e => decide (dist e.hostname exit_host ≤ dist c.hostname exit_host))
        = some c := by
  constructor
  · unfold chooseExit
    cases hsort : stableSortByKey (fun e => dist e.hostname exit_host) exits with
    | nil => exact absurd (stableSortByKey_eq_nil _ _ hsort) hne
    | cons m rest => simp
  · intro c hc
    unfold chooseExit at hc
    exact stableSortByKey_head_first_min (fun e => dist e.hostname exit_host) exits c hc

/-- Witness for c1_exit_selection: with distance given by hostname length,
the list bb, a, c has minimum 1 attained by a (first) and c; the chosen
exit is a, the first minimal one in fetched order. -/
theorem c1_exit_selection_witness :
    (chooseExit (fun a _ => a.length) "x"
      [⟨"bb", 0⟩, ⟨"a", 1⟩, ⟨"c", 2⟩]).isSome = true ∧
    List.find?
      (fun (e : ExitDescriptor) =>
        decide ((fun (a : String) (_ : String) => a.length) e.hostname "x" ≤
          (fun (a : String) (_ : String) => a.length)
            (ExitDescriptor.mk "a" 1).hostname "x"))
      ([⟨"bb", 0⟩, ⟨"a", 1⟩, ⟨"c", 2⟩] : List ExitDescriptor) = some ⟨"a", 1⟩ := by
  refine ⟨(c1_exit_selection (fun a _ => a.length) "x" _ (by decide)).1, ?_⟩
  exact ((c1_exit_selection (fun a _ => a.length) "x"
    [⟨"bb", 0⟩, ⟨"a", 1⟩, ⟨"c", 2⟩] (by decide)).2 ⟨"a", 1⟩ (by decide)).2

/-! ## The connection races (kalive.rs lines 121-188)

The negotiator races cooperatively scheduled futures whose only
interaction is which of them completes first, so we embed them as timed
outcomes: a future is an Option (completion time, result), none meaning
it never completes.  The smol or combinator returns the output of
whichever future completes first, success or error alike, preferring the
left (first-polled) future on a tie.  Times are in seconds from the
start of the connection phase. -/

/-- An established sosistab session, abstracted to a label. -/
structure Session where
  id : Nat
deriving DecidableEq

/-- The errors the connection path of keepalive_actor_once can produce,
named after the anyhow messages in kalive.rs: noBridgesFound is
absolutely no bridges found (line 128), resolveFailed is the failed
hostname resolution of the exit (line 167), connectTimeout is initial
connection timeout after 10 (line 185). -/
inductive ConnErr where
  | noBridgesFound
  | resolveFailed
  | connectTimeout
deriving DecidableEq

/-- Result of the connection phase: a session or an error. -/
inductive ConnRes where
  | ok (s : Session)
  | err (e : ConnErr)
deriving DecidableEq

/-- One per-bridge connection attempt (kalive.rs lines 130-147): the task
spawned for the bridge completes at time (measured from the start of the
bridge race, so it includes the bridge-list fetch) with some session on
success or none when sosistab connect fails. -/
structure BridgeAttempt where
  time : Nat
  result : Option Session
deriving DecidableEq

/-- The earliest successful bridge attempt: the channel of kalive.rs
lines 131-150 delivers attempt results in completion order and the loop
at lines 149-155 adopts the first Ok it sees; a tie between equal
completion times is resolved toward the earlier list position. -/
def firstSuccess : List BridgeAttempt → Option (Nat × Session)
  | [] => none
  | b :: bs =>
    match b.result, firstSuccess bs with
    | none, r => r
    | some s, none => some (b.time, s)
    | some s, some (t, s2) => if b.time ≤ t then some (b.time, s) else some (t, s2)

/-- The bridge race bridge_sess_async (kalive.rs lines 121-156).  An
empty bridge list bails with absolutely no bridges found immediately
(line 128, fetch time taken as 0).  Otherwise one task per bridge feeds
a channel and the loop adopts the earliest success.  When every attempt
fails the future never completes: the original Sender bound at line 131
is only cloned by the spawned tasks and is itself never dropped while
the loop runs, so recv can never return Err and the ran out of bridges
bail at line 150 is unreachable. -/
def bridgeRace (bs : List BridgeAttempt) : Option (Nat × ConnRes) :=
  match bs with
  | [] => some (0, .err .noBridgesFound)
  | _ :: _ =>
    match firstSuccess bs with
    | some (t, s) => some (t, .ok s)
    | none => none

/-- Outcome of the direct connection attempt (kalive.rs lines 162-173):
resolution can fail, making the branch complete with an error; the
connect can succeed at some time; or the connect can fail, in which case
infal (lines 284-290) turns the branch into a future that never
completes. -/
inductive DirectOutcome where
  | resolveFail (t : Nat)
  | connectOk (t : Nat) (s : Session)
  | connectFail
deriving DecidableEq

/-- Timed completion of the direct branch; see DirectOutcome. -/
def directBranch : DirectOutcome → Option (Nat × ConnRes)
  | .resolveFail t => some (t, .err .resolveFailed)
  | .connectOk t s => some (t, .ok s)
  | .connectFail => none

/-- The smol or combinator over timed completions: the earlier completion
wins, the left future winning ties because it is polled first. -/
def race2 {α : Type} : Option (Nat × α) → Option (Nat × α) → Option (Nat × α)
  | none, r => r
  | some x, none => some x
  | some x, some y => if x.1 ≤ y.1 then some x else some y

/-- A future started only after a d second timer (kalive.rs line 175):
its completion shifts d seconds later. -/
def delayBy {α : Type} (d : Nat) : Option (Nat × α) → Option (Nat × α)
  | none => none
  | some (t, r) => some (d + t, r)

/-- connected_sess_async (kalive.rs lines 158-181): with bridges enabled
just the bridge race; otherwise the direct branch raced against a 5
second timer followed by the bridge race. -/
def connectedSess (useBridges : Bool) (d : DirectOutcome)
    (bs : List BridgeAttempt) : Option (Nat × ConnRes) :=
  if useBridges then bridgeRace bs
  else race2 (directBranch d) (delayBy 5 (bridgeRace bs))

/-- Whether the bridge race is ever started: with bridges enabled it
always is; otherwise only if the 5 second timer at line 175 fires before
the direct branch completes (a completion at exactly 5 still wins the
race because the direct branch is polled first, and the losing timer
branch is then dropped without ever fetching a bridge). -/
def bridgeStarted (useBridges : Bool) (d : DirectOutcome) : Bool :=
  useBridges ||
    match directBranch d with
    | some (t, _) => decide (5 < t)
    | none => true

/-- The overall deadline combinator (kalive.rs lines 182-187): the
connection future raced against a timer that bails with the given error;
a completion at exactly the deadline still wins because the connection
future is polled first. -/
def withDeadline (deadline : Nat) (e : ConnErr) :
    Option (Nat × ConnRes) → Nat × ConnRes
  | none => (deadline, .err e)
  | some (t, r) => if t ≤ deadline then (t, r) else (deadline, .err e)

/-- The whole connection phase of keepalive_actor_once (kalive.rs lines
121-188): connected_sess_async under the 10 second overall timeout. -/
def negotiateConn (useBridges : Bool) (d : DirectOutcome)
    (bs : List BridgeAttempt) : Nat × ConnRes :=
  withDeadline 10 .connectTimeout (connectedSess useBridges d bs)

/-- C2 as stated is false: with bridges disabled, a direct connect that
succeeds at 7 seconds (so the 5 second timer fires first) and an empty
bridge list, the direct attempt is the only path that ever completes
successfully, yet the or combinator adopts the first completion of any
kind: the bridge race fails at 5 seconds with absolutely no bridges
found and negotiation fails instead of adopting the later direct
session. -/
theorem c2_counterexample :
    directBranch (.connectOk 7 ⟨1⟩) = some (7, .ok ⟨1⟩) ∧
    firstSuccess [] = none ∧
    connectedSess false (.connectOk 7 ⟨1⟩) [] = some (5, .err .noBridgesFound) ∧
    negotiateConn false (.connectOk 7 ⟨1⟩) [] = (5, .err .noBridgesFound) := by
  decide

/-- C2 amended: with bridges disabled, a direct branch completion by the
5 second timer, success or resolve error, is the outcome and the bridge
race never starts; if the timer fires before the direct branch
completes, the bridge race starts while the direct attempt is still
pending and the first completion decides the outcome: when both paths
complete successfully the earlier success is the session adopted (the
direct branch winning ties); a direct resolve error races the bridge
outcome the same way, so a resolve error completing first fails
negotiation even when a bridge would later succeed; when only the
bridge race completes its result is adopted, error included, and when
neither completes the race pends until the outer deadline. -/
theorem c2_direct_race_amended (d : DirectOutcome) (bs : List BridgeAttempt) :
    (∀ t s, directBranch d = some (t, .ok s) → t ≤ 5 →
      bridgeStarted false d = false ∧
      connectedSess false d bs = some (t, .ok s)) ∧
    (∀ t, directBranch d = some (t, .err .resolveFailed) → t ≤ 5 →
      bridgeStarted false d = false ∧
      connectedSess false d bs = some (t, .err .resolveFailed)) ∧
    ((∀ p, directBranch d = some p → 5 < p.1) →
      bridgeStarted false d = true ∧
      (∀ td s tb sb, directBranch d = some (td, .ok s) →
        bridgeRace bs = some (tb, .ok sb) →
        connectedSess false d bs =
          some (if td ≤ 5 + tb then (td, ConnRes.ok s)
                else (5 + tb, ConnRes.ok sb))) ∧
      (∀ td, directBranch d = some (td, .err .resolveFailed) →
        ∀ tb rb, bridgeRace bs = some (tb, rb) →
        connectedSess false d bs =
          some (if td ≤ 5 + tb then (td, ConnRes.err ConnErr.resolveFailed)
                else (5 + tb, rb))) ∧
      (∀ td, directBranch d = some (td, .err .resolveFailed) →
        bridgeRace bs = none →
        connectedSess false d bs = some (td, .err .resolveFailed)) ∧
      (directBranch d = none → ∀ tb r, bridgeRace bs = some (tb, r) →
        connectedSess false d bs = some (5 + tb, r)) ∧
      (directBranch d = none → bridgeRace bs = none →
        connectedSess false d bs = none)) := by
  refine ⟨?_, ?_, ?_⟩
  · intro t s hd ht5
    cases d with
    | resolveFail t0 => simp [directBranch] at hd
    | connectFail => simp [directBranch] at hd
    | connectOk t0 s0 =>
      simp only [directBranch, Option.some.injEq, Prod.mk.injEq] at hd
      obtain ⟨rfl, hs⟩ := hd
      have hs2 : s0 = s := by cases hs; rfl
      subst hs2
      constructor
      · simp only [bridgeStarted, directBranch, Bool.false_or]
        simp [Nat.not_lt.mpr ht5]
      · simp only [connectedSess, if_neg (Bool.false_ne_true ∘ id), directBranch]
        cases hbr : bridgeRace bs with
        | none => simp [race2, delayBy, hbr]
        | some p =>
          obtain ⟨tb, r⟩ := p
          simp only [delayBy, race2]
          rw [if_pos (by omega)]
  · intro t hd ht5
    cases d with
    | connectOk t0 s0 => simp [directBranch] at hd
    | connectFail => simp [directBranch] at hd
    | resolveFail t0 =>
      simp only [directBranch, Option.some.injEq, Prod.mk.injEq] at hd
      obtain ⟨rfl, -⟩ := hd
      constructor
      · simp only [bridgeStarted, directBranch, Bool.false_or]
        simp [Nat.not_lt.mpr ht5]
      · simp only [connectedSess, if_neg (Bool.false_ne_true ∘ id), directBranch]
        cases hbr : bridgeRace bs with
        | none => simp [race2, delayBy, hbr]
        | some p =>
          obtain ⟨tb, r⟩ := p
          simp only [delayBy, race2]
          rw [if_pos (by omega)]
  · intro hp
    cases d with
    | resolveFail t0 =>
      have h5 : 5 < t0 := hp (t0, .err .resolveFailed) rfl
      refine ⟨by simp [bridgeStarted, directBranch, h5], ?_, ?_, ?_, ?_, ?_⟩
      · intro td s tb sb hd
        simp only [directBranch, Option.some.injEq, Prod.mk.injEq] at hd
        exact absurd hd.2 (by intro h; cases h)
      · intro td hd tb rb hbr
        simp only [directBranch, Option.some.injEq, Prod.mk.injEq] at hd
        obtain ⟨rfl, -⟩ := hd
        have hcs : connectedSess false (.resolveFail t0) bs
            = race2 (some (t0, .err .resolveFailed)) (some (5 + tb, rb)) := by
          simp [connectedSess, directBranch, hbr, delayBy]
        rw [hcs]
        simp only [race2]
        split <;> rfl
      · intro td hd hbr
        simp only [directBranch, Option.some.injEq, Prod.mk.injEq] at hd
        obtain ⟨rfl, -⟩ := hd
        simp [connectedSess, directBranch, hbr, delayBy, race2]
      · intro hd; simp [directBranch] at hd
      · intro hd; simp [directBranch] at hd
    | connectOk t0 s0 =>
      have h5 : 5 < t0 := hp (t0, .ok s0) rfl
      refine ⟨by simp [bridgeStarted, directBranch, h5], ?_, ?_, ?_, ?_, ?_⟩
      · intro td s tb sb hd hbr
        simp only [directBranch, Option.some.injEq, Prod.mk.injEq] at hd
        obtain ⟨rfl, hs⟩ := hd
        have hs2 : s0 = s := by cases hs; rfl
        subst hs2
        have hcs : connectedSess false (.connectOk t0 s0) bs
            = race2 (some (t0, .ok s0)) (some (5 + tb, .ok sb)) := by
          simp [connectedSess, directBranch, hbr, delayBy]
        rw [hcs]
        simp only [race2]
        split <;> rfl
      · intro td hd tb rb hbr
        simp only [directBranch, Option.some.injEq, Prod.mk.injEq] at hd
        exact absurd hd.2 (by intro h; cases h)
      · intro td hd hbr
        simp only [directBranch, Option.some.injEq, Prod.mk.injEq] at hd
        exact absurd hd.2 (by intro h; cases h)
      · intro hd; simp [directBranch] at hd
      · intro hd; simp [directBranch] at hd
    | connectFail =>
      refine ⟨by simp [bridgeStarted, directBranch], ?_, ?_, ?_, ?_, ?_⟩
      · intro td s tb sb hd; simp [directBranch] at hd
      · intro td hd tb rb hbr; simp [directBranch] at hd
      · intro td hd hbr; simp [directBranch] at hd
      · intro _ tb r hbr
        simp [connectedSess, directBranch, hbr, delayBy, race2]
      · intro _ hbr
        simp [connectedSess, directBranch, hbr, delayBy, race2]

/-- Witness for c2_direct_race_amended: a direct connect succeeding at 3
seconds is adopted with no bridge attempt made, and a direct resolve
error at 6 seconds, completing before a bridge success at 7 seconds,
fails the race with the resolve error even though that bridge would
succeed. -/
theorem c2_direct_race_amended_witness :
    (bridgeStarted false (.connectOk 3 ⟨1⟩) = false ∧
      connectedSess false (.connectOk 3 ⟨1⟩) [] = some (3, .ok ⟨1⟩)) ∧
    connectedSess false (.resolveFail 6) [⟨2, some ⟨2⟩⟩] =
      some (6, .err .resolveFailed) := by
  constructor
  · exact (c2_direct_race_amended (.connectOk 3 ⟨1⟩) []).1 3 ⟨1⟩ (by decide)
      (by decide)
  · have h := ((c2_direct_race_amended (.resolveFail 6)
      [⟨2, some ⟨2⟩⟩]).2.2 (by
        intro p hp
        simp only [directBranch, Option.some.injEq] at hp
        subst hp
        decide)).2.2.1 6 (by decide) 2 (.ok ⟨2⟩) (by decide)
    exact h.trans (by decide)

/-- C3: the bridge race does bail with absolutely no bridges found on an
empty list, but when every attempt fails it never completes instead of
failing with the intended ran out of bridges error (the original Sender
of the result channel, bound at kalive.rs line 131, is never dropped, so
the recv at line 150 can never fail); the whole negotiation then fails
only through the outer 10 second deadline. -/
theorem c3_bridge_race_behavior :
    bridgeRace [] = some (0, .err .noBridgesFound) ∧
    bridgeRace [⟨3, none⟩] = none ∧
    negotiateConn true .connectFail [⟨3, none⟩] = (10, .err .connectTimeout) := by
  decide

/-- C4 as stated is false: with bridges enabled and an empty bridge list
no path ever produces a session, yet negotiation fails at once with
absolutely no bridges found, not with the 10 second timeout error. -/
theorem c4_counterexample :
    directBranch .connectFail = none ∧
    firstSuccess [] = none ∧
    negotiateConn true .connectFail [] = (0, .err .noBridgesFound) ∧
    (negotiateConn true .connectFail []).2 ≠ .err .connectTimeout := by
  decide

/-- C4 amended: the connection phase is bounded by a single 10 second
deadline: its completion time never exceeds 10; if the racing paths have
produced no completion at all by 10 seconds (none, or one later than the
deadline) negotiation fails at 10 seconds with initial connection
timeout after 10; a completion within the deadline, success or definite
error, is returned as is. -/
theorem c4_deadline_amended (ub : Bool) (d : DirectOutcome)
    (bs : List BridgeAttempt) :
    (negotiateConn ub d bs).1 ≤ 10 ∧
    (connectedSess ub d bs = none →
      negotiateConn ub d bs = (10, .err .connectTimeout)) ∧
    (∀ t r, connectedSess ub d bs = some (t, r) → 10 < t →
      negotiateConn ub d bs = (10, .err .connectTimeout)) ∧
    (∀ t r, connectedSess ub d bs = some (t, r) → t ≤ 10 →
      negotiateConn ub d bs = (t, r)) := by
  unfold negotiateConn
  cases h : connectedSess ub d bs with
  | none =>
    refine ⟨by simp [withDeadline], fun _ => rfl, ?_, ?_⟩
    · intro t r heq; exact absurd heq (by simp)
    · intro t r heq; exact absurd heq (by simp)
  | some p =>
    obtain ⟨t, r⟩ := p
    refine ⟨?_, by simp, ?_, ?_⟩
    · simp only [withDeadline]
      split
      · omega
      · exact Nat.le_refl 10
    · intro t' r' heq h10
      simp only [Option.some.injEq, Prod.mk.injEq] at heq
      obtain ⟨rfl, rfl⟩ := heq
      simp only [withDeadline]
      rw [if_neg (by omega)]
    · intro t' r' heq h10
      simp only [Option.some.injEq, Prod.mk.injEq] at heq
      obtain ⟨rfl, rfl⟩ := heq
      simp only [withDeadline]
      rw [if_pos h10]

/-- Witness for c4_deadline_amended: a single bridge succeeding at 1
second yields that session at 1 second, within the deadline. -/
theorem c4_deadline_amended_witness :
    negotiateConn true .connectFail [⟨1, some ⟨2⟩⟩] = (1, .ok ⟨2⟩) ∧
    (negotiateConn true .connectFail [⟨1, some ⟨2⟩⟩]).1 ≤ 10 :=
  ⟨(c4_deadline_amended true .connectFail [⟨1, some ⟨2⟩⟩]).2.2.2 1 (.ok ⟨2⟩)
      (by decide) (by decide),
    (c4_deadline_amended true .connectFail [⟨1, some ⟨2⟩⟩]).1⟩

/-! ## The packet classifier and the rate limiter bank
(kalive.rs lines 356-387 and 419-429)

Frames are byte buffers, modelled as lists of naturals (each entry one
byte).  The parsing accessors below are translated from the generated
accessors of the pnet_packet crate used at kalive.rs lines 6-10 and
419-429: an Ipv4Packet or TcpPacket view is just the buffer, admitted
when the buffer holds at least the 20 byte minimal header, and each
field accessor reads the documented wire offsets. -/

/-- How many token buckets the upstream VPN loop keeps (kalive.rs line
360: the range 0..16). -/
def numBuckets : Nat := 16

/-- The bucket index used for an eligible segment (kalive.rs line 372:
the limiter at hash mod 16). -/
def ackBucketIndex (hash : Nat) : Nat := hash % numBuckets

/-- A parsed IPv4 view over a byte buffer (pnet Ipv4Packet). -/
structure Ipv4View where
  packet : List Nat
deriving DecidableEq

/-- pnet Ipv4Packet new: requires the 20 byte minimal header. -/
def Ipv4View.new (bts : List Nat) : Option Ipv4View :=
  if 20 ≤ bts.length then some ⟨bts⟩ else none

/-- IP version: high nibble of byte 0. -/
def Ipv4View.version (p : Ipv4View) : Nat := p.packet.getD 0 0 / 16

/-- IP header length in 32 bit words: low nibble of byte 0. -/
def Ipv4View.header_length (p : Ipv4View) : Nat := p.packet.getD 0 0 % 16

/-- IP total length: bytes 2 and 3, big endian. -/
def Ipv4View.total_length (p : Ipv4View) : Nat :=
  p.packet.getD 2 0 * 256 + p.packet.getD 3 0

/-- IP protocol field: byte 9 (6 = TCP, 17 = UDP). -/
def Ipv4View.next_level_protocol (p : Ipv4View) : Nat := p.packet.getD 9 0

/-- pnet payload accessor for Ipv4Packet: the payload starts after the
20 byte fixed header plus options (header_length being in 32 bit words,
the options take header_length times 4 minus 20 bytes, saturating), has
length total_length minus the header (saturating), and is truncated to
the buffer; a buffer no longer than the header yields an empty
payload. -/
def Ipv4View.payload (p : Ipv4View) : List Nat :=
  let start := 20 + (p.header_length * 4 - 20)
  let plen := p.total_length - p.header_length * 4
  if p.packet.length ≤ start then []
  else (p.packet.drop start).take (min (start + plen) p.packet.length - start)

/-- A parsed TCP view over a byte buffer (pnet TcpPacket). -/
structure TcpView where
  packet : List Nat
deriving DecidableEq

/-- pnet TcpPacket new: requires the 20 byte minimal header. -/
def TcpView.new (bts : List Nat) : Option TcpView :=
  if 20 ≤ bts.length then some ⟨bts⟩ else none

/-- TCP source port: bytes 0 and 1, big endian. -/
def TcpView.source (t : TcpView) : Nat :=
  t.packet.getD 0 0 * 256 + t.packet.getD 1 0

/-- TCP destination port: bytes 2 and 3, big endian. -/
def TcpView.destination (t : TcpView) : Nat :=
  t.packet.getD 2 0 * 256 + t.packet.getD 3 0

/-- TCP data offset in 32 bit words: high nibble of byte 12. -/
def TcpView.data_offset (t : TcpView) : Nat := t.packet.getD 12 0 / 16

/-- TCP flags as the pnet 9 bit field: the NS bit (lowest bit of byte
12) followed by byte 13. -/
def TcpView.get_flags (t : TcpView) : Nat :=
  t.packet.getD 12 0 % 2 * 256 + t.packet.getD 13 0

/-- pnet payload accessor for TcpPacket: everything after the 20 byte
header plus options (data_offset beyond 5 words adds options). -/
def TcpView.payload (t : TcpView) : List Nat :=
  t.packet.drop (20 + (if 5 < t.data_offset then t.data_offset * 4 - 20 else 0))

/-- pnet TcpFlags ACK bit. -/
def TcpFlagsACK : Nat := 16

/-- pnet TcpFlags SYN bit. -/
def TcpFlagsSYN : Nat := 2

/-- ack_decimate (kalive.rs lines 419-429): parse the buffer as IPv4,
parse its payload as TCP, and when the ACK flag is set, the SYN flag
clear and the TCP payload empty, return the xor of the destination and
source ports as the hash; otherwise return none.  Note that neither the
IP version nor the protocol field is consulted. -/
def ack_decimate (bts : List Nat) : Option Nat :=
  match Ipv4View.new bts with
  | none => none
  | some ip =>
    match TcpView.new ip.payload with
    | none => none
    | some t =>
      if t.get_flags &&& TcpFlagsACK ≠ 0 ∧ t.get_flags &&& TcpFlagsSYN = 0 ∧
          t.payload = []
      then some (t.destination ^^^ t.source)
      else none

/-- C5: for every byte buffer on which both parses succeed, the
classifier marks the frame decimation-eligible exactly when the ACK
flag is set, the SYN flag is clear and the TCP payload is empty, and
the hash it returns is the xor of the source and destination ports,
consulted at bucket hash mod 16 (kalive.rs line 372). -/
theorem c5_ack_classifier (bts : List Nat) (ip : Ipv4View) (t : TcpView)
    (hip : Ipv4View.new bts = some ip) (ht : TcpView.new ip.payload = some t) :
    ((ack_decimate bts).isSome = true ↔
      (t.get_flags &&& TcpFlagsACK ≠ 0 ∧ t.get_flags &&& TcpFlagsSYN = 0 ∧
        t.payload = [])) ∧
    ∀ k, ack_decimate bts = some k →
      k = t.source ^^^ t.destination ∧ ackBucketIndex k = k % 16 := by
  have hunf : ack_decimate bts =
      if t.get_flags &&& TcpFlagsACK ≠ 0 ∧ t.get_flags &&& TcpFlagsSYN = 0 ∧
          t.payload = []
      then some (t.destination ^^^ t.source)
      else none := by
    unfold ack_decimate
    simp only [hip, ht]
  rw [hunf]
  constructor
  · split
    · rename_i hcond
      simp [hcond]
    · rename_i hcond
      simp [hcond]
  · intro k hk
    split at hk
    · simp only [Option.some.injEq] at hk
      subst hk
      exact ⟨Nat.xor_comm _ _, rfl⟩
    · exact absurd hk (by simp)

/-- A 40 byte IPv4 frame carrying a pure TCP acknowledgment: version 4,
header length 5 words, total length 40, protocol 6 (TCP); TCP source
port 4096, destination port 80, data offset 5 words, flags byte 16
(ACK only), no payload. -/
def ackBurstFrame : List Nat :=
  [69, 0, 0, 40, 0, 0, 0, 0, 64, 6, 0, 0, 10, 0, 0, 1, 10, 0, 0, 2,
   16, 0, 0, 80, 0, 0, 0, 0, 0, 0, 0, 0, 80, 16, 0, 0, 0, 0, 0, 0]

/-- The same flow as ackBurstFrame but carrying one byte of TCP payload
(total length 41): a data-bearing segment. -/
def dataBurstFrame : List Nat :=
  [69, 0, 0, 41, 0, 0, 0, 0, 64, 6, 0, 0, 10, 0, 0, 1, 10, 0, 0, 2,
   16, 0, 0, 80, 0, 0, 0, 0, 0, 0, 0, 0, 80, 16, 0, 0, 0, 0, 0, 0, 99]

/-- The bytes of ackBurstFrame but with protocol byte 17 (UDP): not a
TCP segment, yet byte for byte its payload region still satisfies every
check ack_decimate makes. -/
def udpLikeFrame : List Nat :=
  [69, 0, 0, 40, 0, 0, 0, 0, 64, 17, 0, 0, 10, 0, 0, 1, 10, 0, 0, 2,
   16, 0, 0, 80, 0, 0, 0, 0, 0, 0, 0, 0, 80, 16, 0, 0, 0, 0, 0, 0]

/-- A 20 byte IPv4 frame with no room for a TCP header: the inner parse
fails. -/
def shortFrame : List Nat :=
  [69, 0, 0, 20, 0, 0, 0, 0, 64, 6, 0, 0, 10, 0, 0, 1, 10, 0, 0, 2]

/-- Witness for c5_ack_classifier at ackBurstFrame: the parses succeed
and the frame is classified eligible. -/
theorem c5_ack_classifier_witness :
    (ack_decimate ackBurstFrame).isSome = true := by
  have h := c5_ack_classifier ackBurstFrame ⟨ackBurstFrame⟩
    ⟨[16, 0, 0, 80, 0, 0, 0, 0, 0, 0, 0, 0, 80, 16, 0, 0, 0, 0, 0, 0]⟩
    (by decide) (by decide)
  exact h.1.mpr (by decide)

/-- The notion the spec and claim C6 use, stated from their words: the
buffer is an IPv4 frame carrying a TCP segment, that is, both parses
succeed, the IP version field is 4 and the IP protocol field is 6
(TCP).  The code itself never inspects the version or protocol
fields. -/
def isIpv4TcpFrame (bts : List Nat) : Bool :=
  match Ipv4View.new bts with
  | none => false
  | some ip =>
    (ip.version == 4) && (ip.next_level_protocol == 6) &&
      (TcpView.new ip.payload).isSome

/-- C6 as stated is false: udpLikeFrame is not an IPv4 frame carrying a
TCP segment (its protocol field is 17, UDP), yet ack_decimate classifies
it decimation-eligible, because the classifier checks neither the IP
version nor the protocol field. -/
theorem c6_counterexample :
    isIpv4TcpFrame udpLikeFrame = false ∧
    ack_decimate udpLikeFrame = some 4176 := by
  decide

/-- C6 amended: a frame whose buffer fails the length-based parse at
either layer (fewer than 20 bytes, or an IPv4 payload of fewer than 20
bytes), and a frame whose TCP payload is non-empty, are never classified
decimation-eligible; frames that merely are not genuine TCP can still be
eligible (see c6_counterexample). -/
theorem c6_never_drops_amended :
    (∀ bts : List Nat, bts.length < 20 → ack_decimate bts = none) ∧
    (∀ bts ip, Ipv4View.new bts = some ip → ip.payload.length < 20 →
      ack_decimate bts = none) ∧
    (∀ bts ip t, Ipv4View.new bts = some ip → TcpView.new ip.payload = some t →
      t.payload ≠ [] → ack_decimate bts = none) := by
  refine ⟨?_, ?_, ?_⟩
  · intro bts hlen
    unfold ack_decimate Ipv4View.new
    rw [if_neg (by omega)]
  · intro bts ip hip hlen
    unfold ack_decimate
    rw [hip]
    have ht : TcpView.new ip.payload = none := by
      unfold TcpView.new
      rw [if_neg (by omega)]
    simp only [ht]
  · intro bts ip t hip ht hpl
    unfold ack_decimate
    simp only [hip, ht]
    rw [if_neg (by intro hcond; exact hpl hcond.2.2)]

/-- Witness for c6_never_drops_amended: an empty buffer, a frame whose
IPv4 payload is empty, and a data-bearing TCP segment are all classified
not eligible. -/
theorem c6_never_drops_amended_witness :
    ack_decimate [] = none ∧
    ack_decimate shortFrame = none ∧
    ack_decimate dataBurstFrame = none := by
  refine ⟨c6_never_drops_amended.1 [] (by decide),
    c6_never_drops_amended.2.1 shortFrame ⟨shortFrame⟩ (by decide) (by decide),
    c6_never_drops_amended.2.2 dataBurstFrame ⟨dataBurstFrame⟩
      ⟨[16, 0, 0, 80, 0, 0, 0, 0, 0, 0, 0, 0, 80, 16, 0, 0, 0, 0, 0, 0, 99]⟩
      (by decide) (by decide) (by decide)⟩

/-- GCRA emission interval in milliseconds of the limiter built at
kalive.rs lines 362-365: Quota::per_second(500) replenishes one cell
every 2 ms. -/
def gcraEmission : Nat := 2

/-- GCRA tolerance in milliseconds for a burst capacity of 500 cells:
(500 - 1) emission intervals, so that a cold bucket admits exactly 500
simultaneous cells. -/
def gcraTolerance : Nat := 998

/-- One token bucket of the bank, holding its theoretical arrival time
in milliseconds.  Models the external governor crate RateLimiter
(kalive.rs lines 360-366) with Quota::per_second(500): burst capacity
500 cells, one cell replenished every 2 ms, no burst beyond
capacity. -/
structure RateBucket where
  tat : Nat
deriving DecidableEq

/-- One conformance check of a bucket at a given time (the limiter
check() call at kalive.rs line 373): the cell is admitted when the
theoretical arrival time is within tolerance of now, advancing it by
one emission interval; otherwise the cell is rejected and the bucket is
unchanged. -/
def RateBucket.check (b : RateBucket) (now : Nat) : Bool × RateBucket :=
  if b.tat ≤ now + gcraTolerance then (true, ⟨max b.tat now + gcraEmission⟩)
  else (false, b)

/-- The state of the upstream VPN loop: the bank of token buckets,
indexed by bucket number (only indices below numBuckets are ever
used). -/
structure VpnUpState where
  buckets : Nat → RateBucket

/-- The initial bank: every limiter fresh (kalive.rs lines 360-366). -/
def vpnUpInit : VpnUpState := ⟨fun _ => ⟨0⟩⟩

/-- One iteration of the upstream VPN loop (kalive.rs lines 368-386) on
one frame body read at a given time: a frame ack_decimate classifies
eligible consults the bucket at index hash mod 16 and is dropped (not
forwarded) when the bucket rejects it; every other frame is forwarded.
Returns the new state and whether the frame was forwarded. -/
def vpnUpStep (st : VpnUpState) (now : Nat) (body : List Nat) :
    VpnUpState × Bool :=
  match ack_decimate body with
  | none => (st, true)
  | some hash =>
    let i := ackBucketIndex hash
    let r := (st.buckets i).check now
    (⟨fun j => if j = i then r.2 else st.buckets j⟩, r.1)

/-- The upstream loop over a list of (arrival time in ms, frame body)
events, counting the forwarded frames. -/
def vpnUpRun (st : VpnUpState) : List (Nat × List Nat) → VpnUpState × Nat
  | [] => (st, 0)
  | e :: rest =>
    let r := vpnUpStep st e.1 e.2
    let r2 := vpnUpRun r.1 rest
    (r2.1, (if r.2 then 1 else 0) + r2.2)

theorem vpnUpRun_not_eligible (f : List Nat) (hf : ack_decimate f = none) :
    ∀ (n : Nat) (st : VpnUpState) (now : Nat),
      vpnUpRun st (List.replicate n (now, f)) = (st, n) := by
  intro n
  induction n with
  | zero => intro st now; rfl
  | succ n ih =>
    intro st now
    have hstep : vpnUpStep st now f = (st, true) := by
      simp only [vpnUpStep, hf]
    simp only [List.replicate_succ, vpnUpRun, hstep, ih st now, if_true]
    exact congrArg (Prod.mk st) (Nat.add_comm 1 n)

/-- Running the upstream loop on n copies of one eligible frame, all
arriving at time 0, starting from a bank whose consulted bucket has
theoretical arrival time 2m, forwards exactly min n (500 - m)
frames. -/
theorem vpnUpRun_eligible_burst (f : List Nat) (h : Nat)
    (hf : ack_decimate f = some h) :
    ∀ (n m : Nat) (st : VpnUpState),
      st.buckets (ackBucketIndex h) = ⟨2 * m⟩ →
      (vpnUpRun st (List.replicate n (0, f))).2 = min n (500 - m) := by
  intro n
  induction n with
  | zero => intro m st _; simp [vpnUpRun]
  | succ n ih =>
    intro m st hb
    by_cases hm : m ≤ 499
    · have hchk : RateBucket.check ⟨2 * m⟩ 0 = (true, ⟨2 * (m + 1)⟩) := by
        simp only [RateBucket.check, gcraTolerance, gcraEmission]
        rw [if_pos (by omega)]
        simp only [Prod.mk.injEq, RateBucket.mk.injEq, true_and]
        omega
      have hstep : vpnUpStep st 0 f =
          (⟨fun j => if j = ackBucketIndex h then ⟨2 * (m + 1)⟩
            else st.buckets j⟩, true) := by
        simp only [vpnUpStep, hf, hb, hchk]
      have hb2 : (⟨fun j => if j = ackBucketIndex h then ⟨2 * (m + 1)⟩
            else st.buckets j⟩ : VpnUpState).buckets (ackBucketIndex h)
          = ⟨2 * (m + 1)⟩ := by simp
      simp only [List.replicate_succ, vpnUpRun, hstep, if_true]
      rw [ih (m + 1) _ hb2]
      omega
    · have hchk : RateBucket.check ⟨2 * m⟩ 0 = (false, ⟨2 * m⟩) := by
        simp only [RateBucket.check, gcraTolerance]
        rw [if_neg (by omega)]
      have hstep : vpnUpStep st 0 f =
          (⟨fun j => if j = ackBucketIndex h then ⟨2 * m⟩
            else st.buckets j⟩, false) := by
        simp only [vpnUpStep, hf, hb, hchk]
      have hb2 : (⟨fun j => if j = ackBucketIndex h then ⟨2 * m⟩
            else st.buckets j⟩ : VpnUpState).buckets (ackBucketIndex h)
          = ⟨2 * m⟩ := by simp
      simp only [List.replicate_succ, vpnUpRun, hstep, Bool.false_eq_true,
        if_false]
      rw [ih m _ hb2]
      omega

/-- C7: the upstream loop keeps 16 rate buckets; an instantaneous burst
of 1000 copies of a zero payload ACK segment of one flow is forwarded
exactly 500 times, bounded by the bucket capacity of 500 (a burst of
501 already loses one), while a burst of 1000 data bearing segments of
the same flow is forwarded in full; a fully drained bucket still rejects
a cell 1 ms after the burst and admits one again at 2 ms, the refill
rate of one token per 2 ms, which is 500 tokens per second with no burst
beyond capacity. -/
theorem c7_ack_rate_limiting :
    (vpnUpRun vpnUpInit (List.replicate 1000 (0, ackBurstFrame))).2 = 500 ∧
    (vpnUpRun vpnUpInit (List.replicate 501 (0, ackBurstFrame))).2 = 500 ∧
    (vpnUpRun vpnUpInit (List.replicate 1000 (0, dataBurstFrame))).2 = 1000 ∧
    RateBucket.check ⟨1000⟩ 1 = (false, ⟨1000⟩) ∧
    RateBucket.check ⟨1000⟩ 2 = (true, ⟨1002⟩) ∧
    numBuckets = 16 := by
  have hack : ack_decimate ackBurstFrame = some 4176 := by decide
  have hdata : ack_decimate dataBurstFrame = none := by decide
  refine ⟨?_, ?_, ?_, by decide, by decide, rfl⟩
  · rw [vpnUpRun_eligible_burst ackBurstFrame 4176 hack 1000 0 vpnUpInit
      (by decide)]
    decide
  · rw [vpnUpRun_eligible_burst ackBurstFrame 4176 hack 501 0 vpnUpInit
      (by decide)]
    decide
  · rw [vpnUpRun_not_eligible dataBurstFrame hdata 1000 vpnUpInit 0]

/-! ## VPN hello negotiation (kalive.rs lines 332-354) and the epoch
failure point (lines 204-281) -/

/-- VPN control messages of the unreliable channel.  Modelled from the
spec: the vpn_structs crate is part of this repository but not under
src, so the tagged union follows spec section 3 (ClientHello with a
client id, ServerHello with the assigned client ip, Payload with raw
bytes); the pattern ServerHello with two dots at kalive.rs line 343
shows ServerHello carries at least one further field, modelled here as
the echoed client id, which that pattern ignores. -/
inductive VpnMsg where
  | clientHello (client_id : Nat)
  | serverHello (client_id : Nat) (client_ip : String)
  | payload (body : List Nat)
deriving DecidableEq

/-- One event observed by the hello loop of run_vpn: either the 1 second
receive timeout fired with no datagram (kalive.rs line 338), or a
datagram arrived, carrying some decoded message, none standing for a
datagram bincode fails to deserialize (line 341). -/
inductive NegEvent where
  | timeout
  | recv (m : Option VpnMsg)
deriving DecidableEq

/-- How the hello loop ends: a ServerHello connected it with an assigned
ip; a decode failure aborted run_vpn with an error; or the trace ran out
while the loop was still awaiting a reply. -/
inductive NegOutcome where
  | connected (client_ip : String)
  | decodeError
  | awaiting
deriving DecidableEq

/-- The hello loop (kalive.rs lines 335-347) over an event trace,
started at a given time in seconds: each iteration sends one ClientHello
carrying the session client id (the send times and ids are returned in
order) and then waits; a timeout advances the clock 1 second and
resends; a ServerHello of any client id ends the loop with its ip; any
other decoded message is ignored, the loop resending immediately; a
datagram that fails to decode ends run_vpn with an error through the
question mark at line 341. -/
def helloLoop (cid : Nat) : Nat → List NegEvent → List (Nat × Nat) × NegOutcome
  | t, [] => ([(t, cid)], .awaiting)
  | t, .timeout :: rest =>
    let r := helloLoop cid (t + 1) rest
    ((t, cid) :: r.1, r.2)
  | t, .recv none :: _ => ([(t, cid)], .decodeError)
  | t, .recv (some (.serverHello _ ip)) :: _ => ([(t, cid)], .connected ip)
  | t, .recv (some (.clientHello _)) :: rest =>
    let r := helloLoop cid t rest
    ((t, cid) :: r.1, r.2)
  | t, .recv (some (.payload _)) :: rest =>
    let r := helloLoop cid t rest
    ((t, cid) :: r.1, r.2)

/-- A frame of the local stdio interface (vpn_structs StdioMsg,
modelled from the spec: verb 1 is control text, verb 0 a data packet);
the body of the one control frame is the assigned ip followed by /10. -/
structure LocalFrame where
  verb : Nat
  body : String
deriving DecidableEq

/-- The control frames run_vpn writes to the local interface during and
right after negotiation (kalive.rs lines 348-354): exactly one frame,
verb 1 with body ip/10, written after the loop ends with a ServerHello;
nothing is written while the loop is still running, and a decode error
aborts run_vpn before the write. -/
def negotiationWrites (cid t : Nat) (evs : List NegEvent) : List LocalFrame :=
  match (helloLoop cid t evs).2 with
  | .connected ip => [⟨1, ip ++ "/10"⟩]
  | _ => []

/-- Probe outcomes of one watchdog iteration (kalive.rs lines 206-215):
the throwaway stream opened, the open failed within the 60 second
deadline, or the deadline fired. -/
inductive ProbeResult where
  | opened
  | openFailed
  | timedOut
deriving DecidableEq

/-- Events inside one epoch of the keepalive actor that end it or not:
a stream open failure is sent to the death channel (kalive.rs lines
254-263) and ends scope.run through the or branch at lines 269-272; the
socks5 request channel closing ends it at lines 231-234; the stats
channel closing at line 275; the spawned VPN relay task (lines 221-224)
is never awaited, so its error ends nothing; the watchdog loop (lines
204-218) is detached, loops forever and only logs. -/
inductive EpochEvent where
  | socks5OpenError
  | socks5ChannelClosed
  | statsChannelClosed
  | vpnRelayError
  | watchdogProbe (r : ProbeResult)
deriving DecidableEq

/-- Whether an epoch event reaches the single failure point of the
epoch, ending keepalive_actor_once; see EpochEvent. -/
def epochFatal : EpochEvent → Bool
  | .socks5OpenError => true
  | .socks5ChannelClosed => true
  | .statsChannelClosed => true
  | .vpnRelayError => false
  | .watchdogProbe _ => false

/-- Whether one watchdog iteration logs a warning (kalive.rs lines
208-215): only when the 60 second deadline fires; an open that succeeds,
and even an open that fails within the deadline, log nothing. -/
def watchdogLogs : ProbeResult → Bool
  | .timedOut => true
  | _ => false

/-- The watchdog sleep between probes, in seconds (kalive.rs line 207). -/
def watchdogPeriod : Nat := 200

/-- The deadline on each watchdog probe, in seconds (kalive.rs line 210). -/
def watchdogProbeDeadline : Nat := 60

/-- Start times of successive watchdog probes given the durations of the
earlier probes: each iteration sleeps 200 seconds and then probes, the
probe itself taking at most the 60 second deadline (kalive.rs lines
206-211). -/
def watchdogTimes (t : Nat) : List Nat → List Nat
  | [] => []
  | d :: ds =>
    (t + watchdogPeriod) ::
      watchdogTimes (t + watchdogPeriod + min d watchdogProbeDeadline) ds

theorem helloLoop_timeouts (cid : Nat) :
    ∀ (n t : Nat), helloLoop cid t (List.replicate n .timeout) =
      ((List.range (n + 1)).map (fun k => (t + k, cid)), .awaiting) := by
  intro n
  induction n with
  | zero => intro t; simp [helloLoop, List.range_succ]
  | succ n ih =>
    intro t
    simp only [List.replicate_succ, helloLoop, ih (t + 1)]
    simp [List.range_succ_eq_map, List.map_map, Function.comp,
      Nat.succ_eq_add_one, Nat.add_comm, Nat.add_assoc, Nat.add_left_comm]

/-- C8: on a trace of n receive timeouts the hello loop sends n + 1
ClientHello messages, all carrying the session client id, at exact 1
second intervals, and is still awaiting with nothing written locally; a
decodable non-ServerHello message does not change the outcome (it is
ignored); any ServerHello ends the loop at once, and then exactly one
control frame, verb 1 with body ip/10, is written; in every case at most
one local frame is written during negotiation, and a nonempty write
means the loop connected and the frame announces the assigned ip. -/
theorem c8_vpn_negotiation (cid n t id2 : Nat) (ip : String)
    (b : List Nat) (evs : List NegEvent) :
    helloLoop cid 0 (List.replicate n .timeout) =
      ((List.range (n + 1)).map (fun k => (k, cid)), .awaiting) ∧
    negotiationWrites cid 0 (List.replicate n .timeout) = [] ∧
    (helloLoop cid t (.recv (some (.payload b)) :: evs)).2 =
      (helloLoop cid t evs).2 ∧
    (helloLoop cid t (.recv (some (.clientHello id2)) :: evs)).2 =
      (helloLoop cid t evs).2 ∧
    helloLoop cid t (.recv (some (.serverHello id2 ip)) :: evs) =
      ([(t, cid)], .connected ip) ∧
    negotiationWrites cid t (.recv (some (.serverHello id2 ip)) :: evs) =
      [⟨1, ip ++ "/10"⟩] ∧
    (negotiationWrites cid t evs).length ≤ 1 ∧
    (negotiationWrites cid t evs = [] ∨
      ∃ ip2, (helloLoop cid t evs).2 = .connected ip2 ∧
        negotiationWrites cid t evs = [⟨1, ip2 ++ "/10"⟩]) := by
  refine ⟨?_, ?_, rfl, rfl, rfl, rfl, ?_, ?_⟩
  · have h := helloLoop_timeouts cid n 0
    simpa using h
  · unfold negotiationWrites
    rw [helloLoop_timeouts cid n 0]
  · unfold negotiationWrites
    cases (helloLoop cid t evs).2 <;> simp
  · unfold negotiationWrites
    cases h : (helloLoop cid t evs).2 with
    | connected ip2 => exact Or.inr ⟨ip2, rfl, rfl⟩
    | decodeError => exact Or.inl rfl
    | awaiting => exact Or.inl rfl

/-- C9: the watchdog probes every 200 seconds under a 60 second
deadline, and no probe outcome, timeout or stream open error alike,
reaches the epoch failure point: its effect is at most a log line,
emitted exactly on a deadline hit. -/
theorem c9_watchdog_nonfatal (r : ProbeResult) (t d : Nat) (ds : List Nat) :
    epochFatal (.watchdogProbe r) = false ∧
    (watchdogLogs r = true ↔ r = .timedOut) ∧
    watchdogTimes t (d :: ds) =
      (t + 200) :: watchdogTimes (t + 200 + min d 60) ds ∧
    watchdogProbeDeadline = 60 ∧
    watchdogPeriod = 200 := by
  refine ⟨rfl, ?_, rfl, rfl, rfl⟩
  cases r <;> simp [watchdogLogs]

/-- C10 as stated is false in its epoch clause: a datagram that fails to
decode during negotiation does abort the relay with an error, but the
relay error never reaches the epoch failure point, because the spawned
VPN task is never awaited (kalive.rs lines 221-224), so the epoch
continues. -/
theorem c10_counterexample :
    helloLoop 0 0 [NegEvent.recv none] = ([(0, 0)], .decodeError) ∧
    epochFatal .vpnRelayError = false := by
  exact ⟨rfl, rfl⟩

/-- C10 amended: the hello loop never compares the session client id
with the reply: any ServerHello, whatever client id it carries, ends the
loop and its ip is adopted; a datagram that fails to decode aborts the
relay with an error, though the actor never observes that error, so the
epoch itself continues. -/
theorem c10_serverhello_unchecked (cid t id2 : Nat) (ip : String)
    (evs : List NegEvent) :
    helloLoop cid t (.recv (some (.serverHello id2 ip)) :: evs) =
      ([(t, cid)], .connected ip) ∧
    helloLoop cid t (.recv none :: evs) = ([(t, cid)], .decodeError) ∧
    epochFatal .vpnRelayError = false := by
  exact ⟨rfl, rfl, rfl⟩
